import Mathlib

/-!
Verification of the reminder lifecycle and recurrence-scheduling engine of the
sonna backend, as a shallow embedding of the Python source under
`backend/tasks/reminder_tasks.py`, `backend/services/reminder_service.py` and
`backend/services/time_parser.py`.

Python machine-level details are modelled as follows: `datetime` values are
records of calendar fields, `timedelta` addition is explicit calendar
arithmetic, database rows are a list of `Reminder` records with an
auto-increment counter, and Celery task dispatches are recorded as an explicit
effect list.
-/

namespace Sonna

/-! Calendar arithmetic mirroring the Python `datetime`, `timedelta` and
`dateutil.relativedelta` operations used by the source. -/

def isLeapYear (y : Nat) : Bool :=
  (y % 4 == 0 && y % 100 != 0) || y % 400 == 0

def daysInMonth (y m : Nat) : Nat :=
  if m = 2 then (if isLeapYear y then 29 else 28)
  else if m = 4 ∨ m = 6 ∨ m = 9 ∨ m = 11 then 30
  else 31

/-- Embeds a Python `datetime.datetime` value (timezone-naive UTC, as the
source stores all reminder timestamps; sub-second precision is inert in every
operation the source performs and is omitted at `second` granularity). -/
structure DateTime where
  year : Nat
  month : Nat
  day : Nat
  hour : Nat
  minute : Nat
  second : Nat
deriving DecidableEq

/-- Validity predicate matching the datetimes Python can actually represent
(month and day in range for the calendar). -/
def validDT (t : DateTime) : Bool :=
  decide (1 ≤ t.month) && decide (t.month ≤ 12) &&
  decide (1 ≤ t.day) && decide (t.day ≤ daysInMonth t.year t.month) &&
  decide (t.hour < 24) && decide (t.minute < 60) && decide (t.second < 60)

def nextDay (t : DateTime) : DateTime :=
  if t.day < daysInMonth t.year t.month then { t with day := t.day + 1 }
  else if t.month < 12 then { t with month := t.month + 1, day := 1 }
  else { t with year := t.year + 1, month := 1, day := 1 }

def prevDay (t : DateTime) : DateTime :=
  if 1 < t.day then { t with day := t.day - 1 }
  else if 1 < t.month then { t with month := t.month - 1, day := daysInMonth t.year (t.month - 1) }
  else { t with year := t.year - 1, month := 12, day := 31 }

def addDays : DateTime → Nat → DateTime
  | t, 0 => t
  | t, n + 1 => addDays (nextDay t) n

def subDays : DateTime → Nat → DateTime
  | t, 0 => t
  | t, n + 1 => subDays (prevDay t) n

/-- Embeds `t + timedelta(days=k)` for a possibly negative whole number of
days. -/
def addDaysI (t : DateTime) (k : Int) : DateTime :=
  if 0 ≤ k then addDays t k.toNat else subDays t (-k).toNat

/-- Embeds `t + timedelta(minutes=k)` (and, scaled, `timedelta(hours=...)`):
Python time arithmetic is linear, with floor division carrying whole days. -/
def addMinutesI (t : DateTime) (k : Int) : DateTime :=
  let tot : Int := (t.hour * 60 + t.minute : Nat) + k
  let dshift : Int := Int.fdiv tot 1440
  let rem : Nat := (Int.fmod tot 1440).toNat
  let d := addDaysI t dshift
  { d with hour := rem / 60, minute := rem % 60 }

/-- Embeds `t + relativedelta(months=1)`: the month is advanced by one (with
year carry) and the day is clamped to the last day of the target month.
`relativedelta` never raises on this operation. -/
def addOneMonth (t : DateTime) : DateTime :=
  let y2 := if t.month = 12 then t.year + 1 else t.year
  let m2 := if t.month = 12 then 1 else t.month + 1
  { t with year := y2, month := m2, day := min t.day (daysInMonth y2 m2) }

/-- Embeds `t.replace(year=y)`: Python validates the day against the new
year/month and raises `ValueError` (here `none`) when the resulting date does
not exist. -/
def replaceYear? (t : DateTime) (y : Nat) : Option DateTime :=
  if t.day ≤ daysInMonth y t.month then some { t with year := y } else none

/-- Lexicographic comparison of calendar fields, matching Python datetime
comparison on valid values; embeds `a < b`. -/
def dtLt (a b : DateTime) : Bool :=
  if a.year ≠ b.year then decide (a.year < b.year)
  else if a.month ≠ b.month then decide (a.month < b.month)
  else if a.day ≠ b.day then decide (a.day < b.day)
  else if a.hour ≠ b.hour then decide (a.hour < b.hour)
  else if a.minute ≠ b.minute then decide (a.minute < b.minute)
  else decide (a.second < b.second)

/-! String operations mirroring the Python `str` methods used by the source
(ASCII-level; the source only ever feeds them English command phrases). -/

def pyLowerChar (c : Char) : Char :=
  if 'A' ≤ c ∧ c ≤ 'Z' then Char.ofNat (c.toNat + 32) else c

/-- Embeds `s.lower()`. -/
def pyLower (s : String) : String := String.mk (s.toList.map pyLowerChar)

/-- Embeds `s.strip()`: removes leading and trailing whitespace. -/
def pyStrip (s : String) : String :=
  String.mk (((s.toList.dropWhile Char.isWhitespace).reverse.dropWhile
    Char.isWhitespace).reverse)

/-- Bool-valued infix test on char lists. -/
def isInfixB (needle : List Char) : List Char → Bool
  | [] => needle.isEmpty
  | c :: t => needle.isPrefixOf (c :: t) || isInfixB needle t

/-- Embeds the Python substring test `needle in hay`. -/
def substrB (needle hay : String) : Bool := isInfixB needle.toList hay.toList

/-- Embeds `s.startswith(pre)`. -/
def startsWithB (pre s : String) : Bool := pre.toList.isPrefixOf s.toList

/-- Embeds `s.split()` with no separator: splits on runs of whitespace and
drops empty fields. -/
def pySplitAux : List Char → List Char → List String
  | [], acc => if acc.isEmpty then [] else [String.mk acc.reverse]
  | c :: cs, acc =>
    if c.isWhitespace then
      if acc.isEmpty then pySplitAux cs []
      else String.mk acc.reverse :: pySplitAux cs []
    else pySplitAux cs (c :: acc)

def pySplit (s : String) : List String := pySplitAux s.toList []

/-- Digit-sequence parser for `pyInt?`: Python digit groups may be separated
by single underscores. -/
def pyDigitsAux : List Char → Nat → Option Nat
  | [], acc => some acc
  | '_' :: c :: cs, acc =>
    if c.isDigit then pyDigitsAux cs (acc * 10 + (c.toNat - 48)) else none
  | ['_'], _ => none
  | c :: cs, acc =>
    if c.isDigit then pyDigitsAux cs (acc * 10 + (c.toNat - 48)) else none

/-- Embeds Python `int(s)` on a string: optional surrounding whitespace,
optional sign, then a digit sequence; `ValueError` is modelled as `none`. -/
def pyInt? (s : String) : Option Int :=
  let cs := (((s.toList.dropWhile Char.isWhitespace).reverse.dropWhile
    Char.isWhitespace).reverse)
  match cs with
  | '-' :: c :: rest =>
    if c.isDigit then (pyDigitsAux rest (c.toNat - 48)).map (fun n => -(n : Int))
    else none
  | '+' :: c :: rest =>
    if c.isDigit then (pyDigitsAux rest (c.toNat - 48)).map (fun n => (n : Int))
    else none
  | c :: rest =>
    if c.isDigit then (pyDigitsAux rest (c.toNat - 48)).map (fun n => (n : Int))
    else none
  | [] => none

/-- First index at which `needle` occurs in the remaining haystack (offset by
the accumulator `i`); embeds Python `hay.find(needle)` on the success path. -/
def findSub (needle : List Char) : List Char → Nat → Option Nat
  | [], i => if needle.isPrefixOf [] then some i else none
  | c :: t, i =>
    if needle.isPrefixOf (c :: t) then some i else findSub needle t (i + 1)

/-! Recurrence calculation: embeds `calculate_next_occurrence` from
`backend/tasks/reminder_tasks.py` (lines 148-196). -/

def isEveryHourPattern (pl : String) : Bool :=
  startsWithB "every " pl && substrB "hour" pl

def isEveryMinutePattern (pl : String) : Bool :=
  startsWithB "every " pl && substrB "minute" pl

/-- Embeds the shared body of the two `every ...` branches: Python takes
`pattern_lower.split()[1]` (an `IndexError` on a missing token and a
`ValueError` from `int` are both caught and give `None`), and adds
`timedelta` scaled by `unitMinutes` (60 for hours, 1 for minutes). -/
def everyBranch (t : DateTime) (pl : String) (unitMinutes : Int) : Option DateTime :=
  match pySplit pl with
  | _ :: tok :: _ =>
    match pyInt? tok with
    | some n => some (addMinutesI t (unitMinutes * n))
    | none => none
  | _ => none

/-- Embeds `calculate_next_occurrence(current_time, pattern)`. The `monthly`
branch uses `relativedelta(months=1)`, which never raises, so its
`except: + timedelta(days=30)` fallback is unreachable; the `yearly` branch
uses `replace(year=year+1)` whose `ValueError` is caught by the outer handler
returning `None`. -/
def calculate_next_occurrence (current_time : DateTime) (pattern : String) :
    Option DateTime :=
  let pl := pyLower pattern
  if pl = "daily" then some (addDaysI current_time 1)
  else if pl = "weekly" then some (addDaysI current_time 7)
  else if pl = "monthly" then some (addOneMonth current_time)
  else if pl = "yearly" then replaceYear? current_time (current_time.year + 1)
  else if isEveryHourPattern pl then everyBranch current_time pl 60
  else if isEveryMinutePattern pl then everyBranch current_time pl 1
  else none

/-! Data model: embeds the `Reminder` SQLAlchemy entity of `backend/models.py`
and its `TaskStatus` enum, with the reminder table as a list of rows plus the
auto-increment id counter. -/

inductive TaskStatus where
  | pending
  | completed
  | failed
  | cancelled
deriving DecidableEq

structure Reminder where
  id : Nat
  user_id : Nat
  content : String
  scheduled_time : DateTime
  status : TaskStatus
  created_at : DateTime
  completed_at : Option DateTime
  recurring : Bool
  recurrence_pattern : Option String
  context : Option String
deriving DecidableEq

structure DB where
  reminders : List Reminder
  nextId : Nat
deriving DecidableEq

/-- Embeds `db.query(Reminder).filter(Reminder.id == reminder_id).first()`. -/
def DB.findRem (db : DB) (rid : Nat) : Option Reminder :=
  db.reminders.find? (fun r => r.id == rid)

/-- Embeds committing attribute changes on a loaded ORM row: the row with the
given id is rewritten (an unconditional write, not a compare-and-swap). -/
def DB.updateRem (db : DB) (rid : Nat) (f : Reminder → Reminder) : DB :=
  { db with reminders := db.reminders.map (fun r => if r.id == rid then f r else r) }

/-- Well-formedness of the table: every stored id is below the auto-increment
counter, so a freshly inserted row never collides with an existing id. -/
def DB.WF (db : DB) : Prop := ∀ r ∈ db.reminders, r.id < db.nextId

/-- Celery task dispatches performed by the code, recorded as effects:
`send_reminder_notification.delay`, `schedule_reminder.delay` and
`execute_reminder.delay`/`apply_async`. -/
inductive Effect where
  | notifyReminder (rid : Nat)
  | enqueueScheduleJob (rid : Nat) (t : DateTime)
  | enqueueExecuteJob (rid : Nat)
deriving DecidableEq

def isNotifyEff : Effect → Bool
  | .notifyReminder _ => true
  | _ => false

def isScheduleEff : Effect → Bool
  | .enqueueScheduleJob _ _ => true
  | _ => false

/-! Execution entry point: embeds `execute_reminder` from
`backend/tasks/reminder_tasks.py` (lines 74-145). The body after the initial
load is factored out so that the same code can run on a stale snapshot in the
interleaved two-worker model below. -/

/-- Embeds the body of `execute_reminder` after the `db.query(...).first()`
load: the PENDING guard, the notification dispatch, the recurrence-child
insertion (`if reminder.recurring and reminder.recurrence_pattern:` — Python
truthiness makes the empty string falsy), and the final unconditional
status write `reminder.status = COMPLETED; reminder.completed_at = utcnow()`.
All reads come from the snapshot; all writes go to the current table. -/
def executeFromSnapshot (db : DB) (now : DateTime) (rid : Nat)
    (snap : Option Reminder) : DB × List Effect :=
  match snap with
  | none => (db, [])
  | some reminder =>
    if reminder.status ≠ TaskStatus.pending then (db, [])
    else
      let step1 : DB × List Effect :=
        if reminder.recurring then
          match reminder.recurrence_pattern with
          | some pat =>
            if pat = "" then (db, [])
            else
              match calculate_next_occurrence reminder.scheduled_time pat with
              | some next_time =>
                let child : Reminder :=
                  { id := db.nextId, user_id := reminder.user_id,
                    content := reminder.content, scheduled_time := next_time,
                    status := TaskStatus.pending, created_at := now,
                    completed_at := none, recurring := true,
                    recurrence_pattern := reminder.recurrence_pattern,
                    context := reminder.context }
                ({ db with reminders := db.reminders ++ [child],
                           nextId := db.nextId + 1 },
                 [Effect.enqueueScheduleJob db.nextId next_time])
              | none => (db, [])
          | none => (db, [])
        else (db, [])
      let db2 := DB.updateRem step1.1 rid (fun r =>
        { r with status := TaskStatus.completed, completed_at := some now })
      (db2, Effect.notifyReminder rid :: step1.2)

/-- Embeds `execute_reminder(reminder_id)` run to completion without
interference: load, then the rest of the body. -/
def execute_reminder (db : DB) (now : DateTime) (rid : Nat) : DB × List Effect :=
  executeFromSnapshot db now rid (db.findRem rid)

/-! Failure handling: embeds the `except` branch of `execute_reminder`
(lines 137-143) and the Celery retry policy `self.retry(countdown=60,
max_retries=3)`. -/

def maxRetries : Nat := 3

def retryCountdown : Nat := 60

/-- Embeds one attempt of `execute_reminder` in which an unhandled exception
is raised after the PENDING guard (for example the notification enqueue at
line 101 failing): the handler marks the loaded reminder FAILED and commits
(lines 140-142), then re-raises for the framework retry. If the guard had
already returned (row missing or not PENDING) no exception occurs and the
attempt is a no-op. No effect is dispatched on the failing path. -/
def execute_reminder_attemptFail (db : DB) (rid : Nat) : DB :=
  match db.findRem rid with
  | none => db
  | some reminder =>
    if reminder.status ≠ TaskStatus.pending then db
    else DB.updateRem db rid (fun r => { r with status := TaskStatus.failed })

/-- Runs `execute_reminder` under the Celery retry policy against a schedule
of injected failures: each `true` makes that attempt raise (after the guard),
each `false` (or running out of injected failures) lets the attempt run to
completion; `k` counts retries already consumed, and a failure with the
budget `maxRetries` exhausted abandons the task. -/
def executeWithRetries (now : DateTime) (rid : Nat) :
    DB → List Bool → Nat → DB × List Effect
  | db, [], _ => execute_reminder db now rid
  | db, false :: _, _ => execute_reminder db now rid
  | db, true :: rest, k =>
    let db2 := execute_reminder_attemptFail db rid
    if k < maxRetries then executeWithRetries now rid db2 rest (k + 1)
    else (db2, [])

/-! Two-worker interleaving model for the race between the primary queue
trigger and the overdue reconciler (`check_pending_reminders`), both of which
invoke `execute_reminder` on the same id. Each worker performs two atomic
database interactions, exactly as the source does: the initial
`query(...).first()` load, and then the remainder of the body (which reads
only its snapshot). A worker schedule lists which worker moves at each step. -/

inductive WPC where
  | start
  | loaded (snapshot : Option Reminder)
  | done
deriving DecidableEq

structure Sys where
  db : DB
  now : DateTime
  rid : Nat
  w1 : WPC
  w2 : WPC
  effects : List Effect
deriving DecidableEq

def stepWorker (db : DB) (now : DateTime) (rid : Nat) : WPC → DB × WPC × List Effect
  | .start => (db, .loaded (db.findRem rid), [])
  | .loaded snap =>
    let r := executeFromSnapshot db now rid snap
    (r.1, .done, r.2)
  | .done => (db, .done, [])

def stepSys (s : Sys) (first : Bool) : Sys :=
  if first then
    let r := stepWorker s.db s.now s.rid s.w1
    { s with db := r.1, w1 := r.2.1, effects := s.effects ++ r.2.2 }
  else
    let r := stepWorker s.db s.now s.rid s.w2
    { s with db := r.1, w2 := r.2.1, effects := s.effects ++ r.2.2 }

def runSys : Sys → List Bool → Sys
  | s, [] => s
  | s, c :: cs => runSys (stepSys s c) cs

/-! Retention sweep: embeds `cleanup_old_reminders` from
`backend/tasks/reminder_tasks.py` (lines 235-270). -/

/-- Bool predicate for the filter `Reminder.status.in_([COMPLETED.value,
CANCELLED.value])` — note the source does not include FAILED. -/
def cleanupStatus : TaskStatus → Bool
  | .completed => true
  | .cancelled => true
  | _ => false

/-- Embeds `cleanup_old_reminders`: deletes every reminder whose status is
COMPLETED or CANCELLED and whose `created_at` is strictly before
`utcnow() - timedelta(days=30)`. -/
def cleanup_old_reminders (db : DB) (now : DateTime) : DB :=
  let cutoff := addDaysI now (-30)
  { db with reminders := db.reminders.filter (fun r =>
      !(cleanupStatus r.status && dtLt r.created_at cutoff)) }

/-! Service layer: embeds `create_reminder` from
`backend/services/reminder_service.py` (lines 113-154) and the content
extraction block of `create_reminder_from_text` (lines 64-86). -/

/-- Embeds `create_reminder(db, user_id, content, scheduled_time, recurring,
recurrence_pattern)`: inserts a PENDING row (the `context` column keeps its
empty default) and returns it. The subsequent `schedule_reminder.delay(...)`
call raises `NameError` — `schedule_reminder` is neither imported nor defined
in `reminder_service.py` (only the unused helper `_schedule_reminder_task`
is) — and the surrounding `try/except` swallows the exception after logging,
so no task-queue job is ever enqueued: the effect list is empty. -/
def create_reminder (db : DB) (now : DateTime) (user_id : Nat) (content : String)
    (scheduled_time : DateTime) (recurring : Bool) (recurrence_pattern : Option String) :
    DB × Reminder × List Effect :=
  let r : Reminder :=
    { id := db.nextId, user_id := user_id, content := content,
      scheduled_time := scheduled_time, status := TaskStatus.pending,
      created_at := now, completed_at := none, recurring := recurring,
      recurrence_pattern := recurrence_pattern, context := none }
  ({ db with reminders := db.reminders ++ [r], nextId := db.nextId + 1 }, r, [])

def remove_phrases : List String :=
  ["remind me to", "remind me", "set a reminder to", "set reminder",
   "set a reminder for", "reminder to", "reminder for"]

/-- Embeds the content-extraction block of `create_reminder_from_text`
(lines 64-86): the first phrase of `remove_phrases` that occurs in the
lowered text has its first occurrence sliced out of the original text (the
loop breaks after one removal), the result is stripped, and an empty result
falls back to the original text. -/
def extract_reminder_content (text : String) : String :=
  let content_lower := pyLower text
  let content :=
    match remove_phrases.find? (fun phrase => substrB phrase content_lower) with
    | some phrase =>
      match findSub phrase.toList content_lower.toList 0 with
      | some idx =>
        String.mk (text.toList.take idx ++ text.toList.drop (idx + phrase.length))
      | none => text
    | none => text
  let stripped := pyStrip content
  if stripped = "" then text else stripped

/-! Text-level time extraction: embeds `extract_time_from_text` from
`backend/services/time_parser.py` (lines 84-131). The underlying resolver
`parse_time_expression` wraps the external `dateparser` library and is passed
in as a parameter; the list of strings handed to it is returned alongside the
result so that resolver invocations are observable. -/

def time_triggers : List String :=
  ["at", "in", "on", "tomorrow", "today", "tonight",
   "next", "this", "every", "morning", "afternoon",
   "evening", "night", "am", "pm"]

/-- Embeds the fallback loop of `extract_time_from_text` (lines 122-129):
for each of "at", "in", "on" present in the lowered text, split on its first
occurrence and try to resolve the stripped remainder; the first non-null
resolution wins. -/
def fallbackLoop (resolve : String → Option DateTime) (text_lower : String) :
    List String → List String → Option DateTime × List String
  | [], calls => (none, calls)
  | trigger :: rest, calls =>
    if substrB trigger text_lower then
      match findSub trigger.toList text_lower.toList 0 with
      | some idx =>
        let time_part :=
          pyStrip (String.mk (text_lower.toList.drop (idx + trigger.length)))
        match resolve time_part with
        | some result => (some result, calls ++ [time_part])
        | none => fallbackLoop resolve text_lower rest (calls ++ [time_part])
      | none => fallbackLoop resolve text_lower rest calls
    else fallbackLoop resolve text_lower rest calls

/-- Embeds `extract_time_from_text(text)`: the trigger-token gate, then one
resolver call on the whole text, then the fallback loop. -/
def extract_time_from_text (resolve : String → Option DateTime) (text : String) :
    Option DateTime × List String :=
  let text_lower := pyLower text
  let has_time_ref := time_triggers.any (fun trigger => substrB trigger text_lower)
  if has_time_ref = false then (none, [])
  else
    match resolve text with
    | some result => (some result, [text])
    | none => fallbackLoop resolve text_lower ["at", "in", "on"] [text]

/-! Concrete fixtures used by the closed theorems below. -/

/-- A PENDING daily-recurring reminder, as both the queue trigger and the
overdue reconciler would see it. -/
def raceReminder : Reminder :=
  { id := 1, user_id := 1, content := "stretch", scheduled_time := ⟨2025, 3, 1, 9, 0, 0⟩,
    status := .pending, created_at := ⟨2025, 2, 28, 9, 0, 0⟩, completed_at := none,
    recurring := true, recurrence_pattern := some "daily", context := none }

def raceDB : DB := { reminders := [raceReminder], nextId := 2 }

def raceNow : DateTime := ⟨2025, 3, 1, 9, 5, 0⟩

def raceSys : Sys :=
  { db := raceDB, now := raceNow, rid := 1, w1 := .start, w2 := .start, effects := [] }

/-- The interleaving in which both workers perform their load before either
commits: worker 1 loads, worker 2 loads, worker 1 finishes, worker 2
finishes. -/
def raceRun : Sys := runSys raceSys [true, false, true, false]

/-- A plain PENDING reminder used by the failure-path fixtures. -/
def pendingFix : Reminder :=
  { id := 1, user_id := 1, content := "take medicine", scheduled_time := ⟨2025, 3, 1, 9, 0, 0⟩,
    status := .pending, created_at := ⟨2025, 2, 28, 9, 0, 0⟩, completed_at := none,
    recurring := false, recurrence_pattern := none, context := none }

def pendingFixDB : DB := { reminders := [pendingFix], nextId := 2 }

/-- A FAILED reminder created 31 days before the sweep instant below. -/
def oldFailedFix : Reminder :=
  { id := 1, user_id := 1, content := "x", scheduled_time := ⟨2025, 2, 12, 12, 0, 0⟩,
    status := .failed, created_at := ⟨2025, 2, 12, 12, 0, 0⟩, completed_at := none,
    recurring := false, recurrence_pattern := none, context := none }

def oldFailedDB : DB := { reminders := [oldFailedFix], nextId := 2 }

def sweepNow : DateTime := ⟨2025, 3, 15, 12, 0, 0⟩

/-- C1: for every reminder in status PENDING, invoking execute twice
concurrently on it results in exactly one COMPLETED transition, one
notification dispatch and one recurrence child — the code violates this: in
the interleaving where both invocations pass the plain read-then-check
PENDING guard before either commits, two notifications are dispatched, two
recurrence children are inserted (three rows total instead of two), while a
single uninterleaved execution produces exactly one of each. -/
theorem execute_concurrent_double_fire :
    (raceRun.effects.countP isNotifyEff = 2
      ∧ raceRun.effects.countP isScheduleEff = 2
      ∧ raceRun.db.reminders.length = 3
      ∧ raceRun.db.reminders.countP
          (fun r => decide (r.status = TaskStatus.pending
            ∧ r.scheduled_time = ⟨2025, 3, 2, 9, 0, 0⟩)) = 2)
    ∧ ((execute_reminder raceDB raceNow 1).2.countP isNotifyEff = 1
      ∧ (execute_reminder raceDB raceNow 1).1.reminders.length = 2) := by
  decide

/-- C7: create persists a new PENDING reminder and returns it, but hands no
job to the task queue: the `schedule_reminder.delay` call in
`reminder_service.py` raises `NameError` (the name is never imported there)
and the `except` swallows it, so the effect list is empty. -/
theorem create_reminder_persists_pending_enqueues_nothing
    (db : DB) (now : DateTime) (uid : Nat) (content : String) (t : DateTime)
    (recurring : Bool) (pat : Option String) :
    (create_reminder db now uid content t recurring pat).2.1.status = TaskStatus.pending
    ∧ (create_reminder db now uid content t recurring pat).2.1.scheduled_time = t
    ∧ (create_reminder db now uid content t recurring pat).1.reminders
        = db.reminders ++ [(create_reminder db now uid content t recurring pat).2.1]
    ∧ (create_reminder db now uid content t recurring pat).2.2 = [] :=
  ⟨rfl, rfl, rfl, rfl⟩

/-- C2 counterexample: the claim says the reminder stays PENDING while
retries remain and is marked FAILED only after the 3-retry budget is
exhausted. On the code, a single failing attempt — with the full retry
budget still available and the next attempt able to succeed — leaves the
reminder FAILED immediately (lines 140-142 commit FAILED before
`self.retry` is raised). -/
theorem execute_failure_marks_failed_with_retries_remaining :
    0 < maxRetries
    ∧ ((execute_reminder_attemptFail pendingFixDB 1).findRem 1).map Reminder.status
        = some TaskStatus.failed
    ∧ ((executeWithRetries raceNow 1 pendingFixDB [true] 0).1.findRem 1).map Reminder.status
        = some TaskStatus.failed
    ∧ TaskStatus.failed ≠ TaskStatus.pending := by
  decide

set_option maxRecDepth 4000 in
/-- C5 counterexample: for `monthly` from 2025-01-31, `relativedelta`
clamps to the last day of February (2025-02-28) and never raises, so the
claimed `+30 days` fallback (which would give 2025-03-02) is not what the
code returns. -/
theorem monthly_clamps_not_plus_thirty_days :
    calculate_next_occurrence ⟨2025, 1, 31, 9, 30, 0⟩ "monthly"
        = some ⟨2025, 2, 28, 9, 30, 0⟩
    ∧ addDaysI ⟨2025, 1, 31, 9, 30, 0⟩ 30 = ⟨2025, 3, 2, 9, 30, 0⟩
    ∧ some (⟨2025, 2, 28, 9, 30, 0⟩ : DateTime) ≠ some (⟨2025, 3, 2, 9, 30, 0⟩ : DateTime) := by
  decide

/-- C6 counterexample: a FAILED reminder is terminal per the state machine
and the fixture's `created_at` is 31 days before the sweep, yet one run of
the retention sweep retains it — the source filter only matches COMPLETED
and CANCELLED. -/
theorem cleanup_retains_old_failed_reminder :
    cleanup_old_reminders oldFailedDB sweepNow = oldFailedDB
    ∧ oldFailedFix.status = TaskStatus.failed
    ∧ dtLt oldFailedFix.created_at (addDaysI sweepNow (-30)) = true := by
  decide

/-- C8 counterexample: for an input that contains none of the boilerplate
phrases but has surrounding whitespace, the code returns the stripped text,
not the original raw text unchanged as the claim states. -/
theorem extract_content_strips_when_no_phrase :
    extract_reminder_content " call mom " = "call mom"
    ∧ " call mom " ≠ "call mom" := by
  decide

/-! Helper lemmas about the table operations. -/

theorem findRem_mem {db : DB} {rid : Nat} {r : Reminder}
    (h : db.findRem rid = some r) : r ∈ db.reminders ∧ r.id = rid := by
  refine ⟨List.mem_of_find?_eq_some h, ?_⟩
  have hp := List.find?_some h
  simpa using hp

/-- The guard: when every row with the requested id is non-PENDING (in
particular when there is no such row), `execute_reminder` is a no-op. -/
theorem exec_noop_of_guard (db : DB) (now : DateTime) (rid : Nat)
    (h : ∀ r ∈ db.reminders, r.id = rid → r.status ≠ TaskStatus.pending) :
    execute_reminder db now rid = (db, []) := by
  unfold execute_reminder
  cases hf : db.findRem rid with
  | none => rfl
  | some r =>
    obtain ⟨hmem, hid⟩ := findRem_mem hf
    have hst := h r hmem hid
    simp [executeFromSnapshot, hst]

theorem attemptFail_noop_of_guard (db : DB) (rid : Nat)
    (h : ∀ r ∈ db.reminders, r.id = rid → r.status ≠ TaskStatus.pending) :
    execute_reminder_attemptFail db rid = db := by
  unfold execute_reminder_attemptFail
  cases hf : db.findRem rid with
  | none => rfl
  | some r =>
    obtain ⟨hmem, hid⟩ := findRem_mem hf
    have hst := h r hmem hid
    simp [hst]

theorem retries_noop_of_guard (db : DB) (now : DateTime) (rid : Nat)
    (h : ∀ r ∈ db.reminders, r.id = rid → r.status ≠ TaskStatus.pending) :
    ∀ (sched : List Bool) (k : Nat), executeWithRetries now rid db sched k = (db, []) := by
  intro sched
  induction sched with
  | nil => intro _; exact exec_noop_of_guard db now rid h
  | cons b rest ih =>
    intro k
    cases b with
    | false => exact exec_noop_of_guard db now rid h
    | true =>
      unfold executeWithRetries
      rw [attemptFail_noop_of_guard db rid h]
      by_cases hk : k < maxRetries
      · simp only [if_pos hk]
        exact ih (k + 1)
      · simp only [if_neg hk]

/-- After marking the row FAILED, every row with the requested id is
non-PENDING. -/
theorem updated_failed_guard (db : DB) (rid : Nat) :
    ∀ x ∈ (DB.updateRem db rid
        (fun y => { y with status := TaskStatus.failed })).reminders,
      x.id = rid → x.status ≠ TaskStatus.pending := by
  intro x hx hid
  simp only [DB.updateRem, List.mem_map] at hx
  obtain ⟨y, _, hy⟩ := hx
  by_cases hyid : (y.id == rid) = true
  · rw [if_pos hyid] at hy
    rw [← hy]
    intro hcontra
    exact absurd hcontra (by simp)
  · rw [if_neg hyid] at hy
    subst hy
    exact absurd (by simp [hid]) hyid

/-- C4: for a reminder whose status is not PENDING, and for an id absent
from the store, `execute_reminder` is a no-op: it dispatches no
notification, creates no recurrence child, and leaves every stored reminder
unchanged. -/
theorem execute_non_pending_noop (db : DB) (now : DateTime) (rid : Nat)
    (h : ∀ r ∈ db.reminders, r.id = rid → r.status ≠ TaskStatus.pending) :
    execute_reminder db now rid = (db, []) :=
  exec_noop_of_guard db now rid h

/-- C4 witness: a store holding only a COMPLETED reminder with the requested
id is left untouched and produces no effects. -/
theorem execute_non_pending_noop_witness :
    execute_reminder
        { reminders := [{ pendingFix with status := TaskStatus.completed }], nextId := 2 }
        raceNow 1
      = ({ reminders := [{ pendingFix with status := TaskStatus.completed }], nextId := 2 }, []) :=
  execute_non_pending_noop _ raceNow 1 (by decide)

/-- C2 (amended): on an unhandled exception during `execute`, the reminder
is marked FAILED immediately on the first failing attempt — not after the
retry budget is exhausted; the framework retry (3 retries, 60-second
backoff) is still requested, but every retried attempt finds the status
already non-PENDING and no-ops, so the store keeps the immediately-written
FAILED row and no effect is ever dispatched. -/
theorem execute_failure_immediate_failed_then_noop_retries
    (db : DB) (now : DateTime) (rid : Nat) (r : Reminder) (rest : List Bool) (k : Nat)
    (hr : db.findRem rid = some r) (hst : r.status = TaskStatus.pending) :
    maxRetries = 3 ∧ retryCountdown = 60
    ∧ (executeWithRetries now rid db (true :: rest) k).1
        = DB.updateRem db rid (fun y => { y with status := TaskStatus.failed })
    ∧ (executeWithRetries now rid db (true :: rest) k).2 = [] := by
  have hAF : execute_reminder_attemptFail db rid
      = DB.updateRem db rid (fun y => { y with status := TaskStatus.failed }) := by
    unfold execute_reminder_attemptFail
    rw [hr]
    simp [hst]
  have hrest := retries_noop_of_guard
    (DB.updateRem db rid (fun y => { y with status := TaskStatus.failed })) now rid
    (updated_failed_guard db rid)
  refine ⟨rfl, rfl, ?_, ?_⟩ <;>
    · unfold executeWithRetries
      rw [hAF]
      by_cases hk : k < maxRetries
      · simp only [if_pos hk, hrest]
      · simp only [if_neg hk]

/-- C2 witness: a concrete PENDING reminder whose first attempt raises and
whose second attempt would be allowed to succeed still ends FAILED with no
dispatched effects. -/
theorem execute_failure_immediate_failed_witness :
    maxRetries = 3 ∧ retryCountdown = 60
    ∧ (executeWithRetries raceNow 1 pendingFixDB (true :: [false]) 0).1
        = DB.updateRem pendingFixDB 1 (fun y => { y with status := TaskStatus.failed })
    ∧ (executeWithRetries raceNow 1 pendingFixDB (true :: [false]) 0).2 = [] :=
  execute_failure_immediate_failed_then_noop_retries pendingFixDB raceNow 1 pendingFix
    [false] 0 (by decide) (by decide)

/-- C3: successful execution of a recurring reminder with a set pattern
appends exactly one new PENDING row whose `scheduled_time` is the recurrence
calculator applied to the executed reminder's original `scheduled_time`
(`now`, the actual firing instant, never enters the calculation), carrying
the same user, content, context and pattern; the executed row itself is only
marked COMPLETED (with `completed_at = now`) and is otherwise unchanged. -/
theorem execute_recurring_creates_single_child
    (db : DB) (now : DateTime) (rid : Nat) (r : Reminder) (p : String) (t : DateTime)
    (hwf : db.WF)
    (hr : db.findRem rid = some r) (hst : r.status = TaskStatus.pending)
    (hrec : r.recurring = true) (hpat : r.recurrence_pattern = some p) (hne : p ≠ "")
    (hcalc : calculate_next_occurrence r.scheduled_time p = some t) :
    (execute_reminder db now rid).1.reminders
      = db.reminders.map (fun x => if x.id == rid
          then { x with status := TaskStatus.completed, completed_at := some now } else x)
        ++ [{ id := db.nextId, user_id := r.user_id, content := r.content,
              scheduled_time := t, status := TaskStatus.pending, created_at := now,
              completed_at := none, recurring := true, recurrence_pattern := some p,
              context := r.context }]
    ∧ (execute_reminder db now rid).2
        = [Effect.notifyReminder rid, Effect.enqueueScheduleJob db.nextId t] := by
  obtain ⟨hmem, hid⟩ := findRem_mem hr
  have hlt : rid < db.nextId := hid ▸ hwf r hmem
  have hfresh : (db.nextId == rid) = false := by
    simp only [beq_eq_false_iff_ne, ne_eq]
    omega
  unfold execute_reminder
  rw [hr]
  simp only [executeFromSnapshot, hst, hrec, hpat, hcalc, if_neg hne, ne_eq,
    not_true_eq_false, if_false, if_true, ite_true, reduceIte, DB.updateRem,
    List.map_append, List.map_cons, List.map_nil, hfresh]
  exact ⟨rfl, trivial⟩

/-- C3 witness: executing the concrete PENDING daily reminder five minutes
late yields exactly one child scheduled one day after the original
`scheduled_time`, alongside the original row marked COMPLETED. -/
theorem execute_recurring_creates_single_child_witness :
    (execute_reminder raceDB raceNow 1).1.reminders
      = [{ raceReminder with status := TaskStatus.completed, completed_at := some raceNow },
         { id := 2, user_id := 1, content := "stretch",
           scheduled_time := ⟨2025, 3, 2, 9, 0, 0⟩, status := TaskStatus.pending,
           created_at := raceNow, completed_at := none, recurring := true,
           recurrence_pattern := some "daily", context := none }]
    ∧ (execute_reminder raceDB raceNow 1).2
        = [Effect.notifyReminder 1, Effect.enqueueScheduleJob 2 ⟨2025, 3, 2, 9, 0, 0⟩] := by
  have h := execute_recurring_creates_single_child raceDB raceNow 1 raceReminder "daily"
    ⟨2025, 3, 2, 9, 0, 0⟩ (by unfold DB.WF; decide) (by decide) (by decide) (by decide)
    (by decide) (by decide) (by decide)
  refine ⟨?_, ?_⟩
  · rw [h.1]; decide
  · rw [h.2]; decide

/-- C6 (amended): one run of the retention sweep deletes exactly the
reminders whose status is COMPLETED or CANCELLED and whose `created_at` is
strictly more than 30 days before the sweep; every other reminder — in
particular every FAILED one, although FAILED is terminal, and everything at
most 30 days old — is retained. -/
theorem cleanup_deletes_exactly_old_completed_or_cancelled
    (db : DB) (now : DateTime) (r : Reminder) (hmem : r ∈ db.reminders) :
    r ∈ (cleanup_old_reminders db now).reminders
      ↔ ¬((r.status = TaskStatus.completed ∨ r.status = TaskStatus.cancelled)
           ∧ dtLt r.created_at (addDaysI now (-30)) = true) := by
  have hcs : (cleanupStatus r.status = true)
      ↔ (r.status = TaskStatus.completed ∨ r.status = TaskStatus.cancelled) := by
    cases hs : r.status <;> simp [cleanupStatus]
  simp only [cleanup_old_reminders, List.mem_filter, hmem, true_and,
    Bool.not_eq_true', Bool.and_eq_false_iff, ← hcs]
  cases hcl : cleanupStatus r.status <;>
    cases hlt : dtLt r.created_at (addDaysI now (-30)) <;> simp

/-- A CANCELLED reminder created 31 days before the sweep fixture below. -/
def oldCancelledFix : Reminder := { oldFailedFix with status := TaskStatus.cancelled }

/-- A CANCELLED reminder created 29 days before the sweep fixture below. -/
def recentCancelledFix : Reminder :=
  { oldFailedFix with status := TaskStatus.cancelled, created_at := ⟨2025, 2, 14, 12, 0, 0⟩ }

/-- C6 witness: the sweep removes a CANCELLED reminder created 31 days
before it and retains one created 29 days before it. -/
theorem cleanup_deletes_exactly_old_completed_or_cancelled_witness :
    oldCancelledFix ∉
        (cleanup_old_reminders { reminders := [oldCancelledFix], nextId := 2 } sweepNow).reminders
    ∧ recentCancelledFix ∈
        (cleanup_old_reminders { reminders := [recentCancelledFix], nextId := 2 } sweepNow).reminders := by
  constructor
  · intro hmem
    exact (cleanup_deletes_exactly_old_completed_or_cancelled
      { reminders := [oldCancelledFix], nextId := 2 } sweepNow oldCancelledFix
      (by decide)).mp hmem (by decide)
  · exact (cleanup_deletes_exactly_old_completed_or_cancelled
      { reminders := [recentCancelledFix], nextId := 2 } sweepNow recentCancelledFix
      (by decide)).mpr (by decide)

/-- C9: when the text contains none of the fixed time-trigger tokens as a
substring of its lowered form, the text-level parse returns `None` and the
underlying natural-language resolver is never invoked (the recorded call
list is empty). -/
theorem extract_time_gate_no_trigger (resolve : String → Option DateTime) (text : String)
    (h : ∀ trig ∈ time_triggers, substrB trig (pyLower text) = false) :
    extract_time_from_text resolve text = (none, []) := by
  have hany : (time_triggers.any fun trigger => substrB trigger (pyLower text)) = false := by
    cases hb : (time_triggers.any fun trigger => substrB trigger (pyLower text)) with
    | false => rfl
    | true =>
      obtain ⟨x, hx, hpx⟩ := List.any_eq_true.mp hb
      exact absurd hpx (by simp [h x hx])
  simp [extract_time_from_text, hany]

/-- C9 witness: a trigger-free input short-circuits to `None` with zero
resolver calls, even against a resolver that would answer every query. -/
theorem extract_time_gate_no_trigger_witness :
    extract_time_from_text (fun _ => some raceNow) "buy eggs" = (none, []) :=
  extract_time_gate_no_trigger (fun _ => some raceNow) "buy eggs" (by decide)

/-- Shared lemma: on an `every ... hour` pattern with a split of the given
shape, the calculator applies `int` to the second token and adds that many
hours. -/
theorem calcHourBranchEq (t : DateTime) (p tok : String) (rest : List String)
    (h1 : isEveryHourPattern (pyLower p) = true)
    (hsp : pySplit (pyLower p) = "every" :: tok :: rest) :
    calculate_next_occurrence t p = (pyInt? tok).map (fun n => addMinutesI t (60 * n)) := by
  have hd : pyLower p ≠ "daily" := by
    intro he; rw [he] at h1; exact absurd h1 (by decide)
  have hw : pyLower p ≠ "weekly" := by
    intro he; rw [he] at h1; exact absurd h1 (by decide)
  have hm : pyLower p ≠ "monthly" := by
    intro he; rw [he] at h1; exact absurd h1 (by decide)
  have hy : pyLower p ≠ "yearly" := by
    intro he; rw [he] at h1; exact absurd h1 (by decide)
  simp [calculate_next_occurrence, hd, hw, hm, hy, h1, everyBranch, hsp]
  cases pyInt? tok <;> simp

/-- Shared lemma: on an `every ... minute` pattern (and not an hour pattern)
with a split of the given shape, the calculator applies `int` to the second
token and adds that many minutes. -/
theorem calcMinuteBranchEq (t : DateTime) (p tok : String) (rest : List String)
    (h1 : isEveryHourPattern (pyLower p) = false)
    (h2 : isEveryMinutePattern (pyLower p) = true)
    (hsp : pySplit (pyLower p) = "every" :: tok :: rest) :
    calculate_next_occurrence t p = (pyInt? tok).map (fun n => addMinutesI t n) := by
  have hd : pyLower p ≠ "daily" := by
    intro he; rw [he] at h2; exact absurd h2 (by decide)
  have hw : pyLower p ≠ "weekly" := by
    intro he; rw [he] at h2; exact absurd h2 (by decide)
  have hm : pyLower p ≠ "monthly" := by
    intro he; rw [he] at h2; exact absurd h2 (by decide)
  have hy : pyLower p ≠ "yearly" := by
    intro he; rw [he] at h2; exact absurd h2 (by decide)
  simp [calculate_next_occurrence, hd, hw, hm, hy, h1, h2, everyBranch, hsp]
  cases pyInt? tok <;> simp

/-- C5 (amended): the recurrence calculator maps `daily` to +1 day,
`weekly` to +1 week, `monthly` to one calendar month later with the day
clamped to the last day of the target month (`relativedelta` never raises,
so no +30-day fallback occurs), `yearly` to the same date with year+1 when
that date exists and `None` when it does not (a Feb-29 source), and
`every N hour(s)` / `every N minute(s)` to +N hours / +N minutes with N
parsed by Python `int` from the second whitespace token (`None` when that
token is not an integer); every other pattern yields `None`. -/
theorem calculate_next_occurrence_rules
    (t : DateTime) (p tok : String) (rest : List String) :
    (pyLower p = "daily" → calculate_next_occurrence t p = some (addDaysI t 1))
    ∧ (pyLower p = "weekly" → calculate_next_occurrence t p = some (addDaysI t 7))
    ∧ (pyLower p = "monthly" → calculate_next_occurrence t p = some (addOneMonth t)
        ∧ (addOneMonth t).day
            = min t.day (daysInMonth (addOneMonth t).year (addOneMonth t).month)
        ∧ (addOneMonth t).hour = t.hour ∧ (addOneMonth t).minute = t.minute)
    ∧ (pyLower p = "yearly" → t.day ≤ daysInMonth (t.year + 1) t.month →
        calculate_next_occurrence t p = some { t with year := t.year + 1 })
    ∧ (pyLower p = "yearly" → daysInMonth (t.year + 1) t.month < t.day →
        calculate_next_occurrence t p = none)
    ∧ (isEveryHourPattern (pyLower p) = true →
        pySplit (pyLower p) = "every" :: tok :: rest →
        calculate_next_occurrence t p = (pyInt? tok).map (fun n => addMinutesI t (60 * n)))
    ∧ (isEveryHourPattern (pyLower p) = false → isEveryMinutePattern (pyLower p) = true →
        pySplit (pyLower p) = "every" :: tok :: rest →
        calculate_next_occurrence t p = (pyInt? tok).map (fun n => addMinutesI t n))
    ∧ (pyLower p ≠ "daily" → pyLower p ≠ "weekly" → pyLower p ≠ "monthly" →
        pyLower p ≠ "yearly" → isEveryHourPattern (pyLower p) = false →
        isEveryMinutePattern (pyLower p) = false →
        calculate_next_occurrence t p = none) := by
  refine ⟨?_, ?_, ?_, ?_, ?_, ?_, ?_, ?_⟩
  · intro h; simp [calculate_next_occurrence, h]
  · intro h; simp [calculate_next_occurrence, h]
  · intro h
    refine ⟨by simp [calculate_next_occurrence, h], ?_, rfl, rfl⟩
    simp [addOneMonth]
  · intro h hle
    simp [calculate_next_occurrence, h, replaceYear?, hle]
  · intro h hlt
    simp [calculate_next_occurrence, h, replaceYear?]
    omega
  · exact calcHourBranchEq t p tok rest
  · exact calcMinuteBranchEq t p tok rest
  · intro hd hw hm hy h5 h6
    simp [calculate_next_occurrence, hd, hw, hm, hy, h5, h6]


/-- C5 witness: the monthly rule instantiated at 2025-01-31 (clamping
month-end) and the hour rule instantiated at `every 2 hours`. -/
theorem calculate_next_occurrence_rules_witness :
    calculate_next_occurrence ⟨2025, 1, 31, 9, 30, 0⟩ "monthly"
        = some (addOneMonth ⟨2025, 1, 31, 9, 30, 0⟩)
    ∧ calculate_next_occurrence ⟨2025, 3, 1, 9, 0, 0⟩ "every 2 hours"
        = (pyInt? "2").map (fun n => addMinutesI ⟨2025, 3, 1, 9, 0, 0⟩ (60 * n)) := by
  constructor
  · exact ((calculate_next_occurrence_rules ⟨2025, 1, 31, 9, 30, 0⟩ "monthly" ""
      []).2.2.1 (by decide)).1
  · exact (calculate_next_occurrence_rules ⟨2025, 3, 1, 9, 0, 0⟩ "every 2 hours" "2"
      ["hours"]).2.2.2.2.2.1 (by decide) (by decide)

/-- C10: the recurrence calculator is a total function in this embedding and
returns `None` rather than propagating an exception at the two places the
source could raise: `yearly` on a February 29 source date (the
`replace(year+1)` `ValueError` is caught by the outer handler), and
`every ... hour` / `every ... minute` patterns whose second whitespace token
is not an integer (the `int` `ValueError` is caught, giving `None`). -/
theorem calculate_next_occurrence_none_on_invalid
    (t : DateTime) (p tok : String) (rest : List String) :
    (validDT t = true → t.month = 2 → t.day = 29 →
        calculate_next_occurrence t "yearly" = none)
    ∧ (isEveryHourPattern (pyLower p) = true →
        pySplit (pyLower p) = "every" :: tok :: rest → pyInt? tok = none →
        calculate_next_occurrence t p = none)
    ∧ (isEveryHourPattern (pyLower p) = false → isEveryMinutePattern (pyLower p) = true →
        pySplit (pyLower p) = "every" :: tok :: rest → pyInt? tok = none →
        calculate_next_occurrence t p = none) := by
  refine ⟨?_, ?_, ?_⟩
  · intro hv h2 h29
    have hvp : t.day ≤ daysInMonth t.year t.month := by
      simp only [validDT, Bool.and_eq_true, decide_eq_true_eq] at hv
      exact hv.1.1.1.2
    have hleap : isLeapYear t.year = true := by
      rw [h2] at hvp
      by_contra hc
      simp only [Bool.not_eq_true] at hc
      simp [daysInMonth, hc] at hvp
      omega
    have hy4 : t.year % 4 = 0 := by
      simp only [isLeapYear, Bool.or_eq_true, Bool.and_eq_true, beq_iff_eq,
        bne_iff_ne, ne_eq] at hleap
      rcases hleap with ⟨h4, _⟩ | h400
      · exact h4
      · omega
    have hleapN : isLeapYear (t.year + 1) = false := by
      cases hb : isLeapYear (t.year + 1) with
      | false => rfl
      | true =>
        exfalso
        simp only [isLeapYear, Bool.or_eq_true, Bool.and_eq_true, beq_iff_eq,
          bne_iff_ne, ne_eq] at hb
        omega
    have hcap : daysInMonth (t.year + 1) t.month = 28 := by
      rw [h2]
      simp [daysInMonth, hleapN]
    simp [calculate_next_occurrence, replaceYear?, hcap, h29,
      show pyLower "yearly" = "yearly" from by decide]
  · intro h1 hsp hint
    rw [calcHourBranchEq t p tok rest h1 hsp, hint]
    rfl
  · intro h1 h2 hsp hint
    rw [calcMinuteBranchEq t p tok rest h1 h2 hsp, hint]
    rfl

/-- C10 witness: Feb 29 2024 with `yearly` and `every few hours` both give
`None` (the recurrence chain ends) instead of an error. -/
theorem calculate_next_occurrence_none_on_invalid_witness :
    calculate_next_occurrence ⟨2024, 2, 29, 8, 0, 0⟩ "yearly" = none
    ∧ calculate_next_occurrence ⟨2025, 3, 1, 9, 0, 0⟩ "every few hours" = none := by
  constructor
  · exact (calculate_next_occurrence_none_on_invalid ⟨2024, 2, 29, 8, 0, 0⟩ "" "" []).1
      (by decide) (by decide) (by decide)
  · exact (calculate_next_occurrence_none_on_invalid ⟨2025, 3, 1, 9, 0, 0⟩
      "every few hours" "few" ["hours"]).2.1 (by decide) (by decide) (by decide)

/-- A list search returns the first element in list order satisfying the
predicate. -/
theorem find?_of_split {α : Type} (p : α → Bool) (pre post : List α) (x : α)
    (hpre : ∀ q ∈ pre, p q = false) (hx : p x = true) :
    (pre ++ x :: post).find? p = some x := by
  induction pre with
  | nil => simp [List.find?_cons_of_pos, hx]
  | cons a as ih =>
    have ha : p a = false := hpre a (List.mem_cons_self a as)
    rw [List.cons_append, List.find?_cons_of_neg _ (by simp [ha])]
    exact ih (fun q hq => hpre q (List.mem_cons_of_mem a hq))

/-- The substring scan returns the least index at which the needle starts
(offset by the accumulator). -/
theorem findSub_of_least (needle : List Char) :
    ∀ (k : Nat) (hay : List Char) (i : Nat),
      needle.isPrefixOf (hay.drop k) = true →
      (∀ j < k, needle.isPrefixOf (hay.drop j) = false) →
      findSub needle hay i = some (i + k) := by
  intro k
  induction k with
  | zero =>
    intro hay i hk _
    rw [List.drop_zero] at hk
    cases hay with
    | nil => simp [findSub, hk]
    | cons c t => simp [findSub, hk]
  | succ k ih =>
    intro hay i hk hleast
    have h0 : needle.isPrefixOf hay = false := by
      have := hleast 0 (Nat.succ_pos k)
      simpa using this
    cases hay with
    | nil =>
      exfalso
      simp only [List.drop_nil] at hk
      cases needle with
      | nil => simp [List.isPrefixOf] at h0
      | cons a as => simp [List.isPrefixOf] at hk
    | cons c t =>
      have hk' : needle.isPrefixOf (t.drop k) = true := by
        simpa [List.drop_succ_cons] using hk
      have hleast' : ∀ j < k, needle.isPrefixOf (t.drop j) = false := by
        intro j hj
        have := hleast (j + 1) (Nat.succ_lt_succ hj)
        simpa [List.drop_succ_cons] using this
      have hrec := ih t (i + 1) hk' hleast'
      simp only [findSub, h0, Bool.false_eq_true, if_false, hrec]
      congr 1
      omega

/-- C8 (amended): content extraction removes the first occurrence of the
first phrase, in fixed list order, that occurs case-insensitively anywhere in
the text, and returns the trimmed remainder, falling back to the original
raw text when the remainder trims to empty; when no phrase matches the
result is the trimmed original text (the original raw text verbatim only if
it trims to empty), not the raw text unchanged. -/
theorem extract_content_characterization
    (text phrase : String) (pre post : List String) (k : Nat) :
    (remove_phrases = pre ++ phrase :: post →
      (∀ q ∈ pre, substrB q (pyLower text) = false) →
      substrB phrase (pyLower text) = true →
      phrase.toList.isPrefixOf ((pyLower text).toList.drop k) = true →
      (∀ j < k, phrase.toList.isPrefixOf ((pyLower text).toList.drop j) = false) →
      extract_reminder_content text
        = (if pyStrip (String.mk (text.toList.take k
              ++ text.toList.drop (k + phrase.length))) = ""
           then text
           else pyStrip (String.mk (text.toList.take k
              ++ text.toList.drop (k + phrase.length)))))
    ∧ ((∀ q ∈ remove_phrases, substrB q (pyLower text) = false) →
      extract_reminder_content text
        = (if pyStrip text = "" then text else pyStrip text)) := by
  constructor
  · intro hsplit hpre hocc hk hleast
    have hfind : remove_phrases.find? (fun q => substrB q (pyLower text)) = some phrase := by
      rw [hsplit]
      exact find?_of_split _ pre post phrase hpre hocc
    have hsub : findSub phrase.toList (pyLower text).toList 0 = some k := by
      have h := findSub_of_least phrase.toList k (pyLower text).toList 0 hk hleast
      simpa using h
    simp only [extract_reminder_content, hfind, hsub]
  · intro hnone
    have hfind : remove_phrases.find? (fun q => substrB q (pyLower text)) = none := by
      rw [List.find?_eq_none]
      intro x hx
      simp [hnone x hx]
    simp only [extract_reminder_content, hfind]

/-- C8 witness: the first listed phrase is removed at its first occurrence
and the remainder is trimmed. -/
theorem extract_content_characterization_witness :
    extract_reminder_content "remind me to water plants" = "water plants" := by
  have h := (extract_content_characterization "remind me to water plants" "remind me to"
    [] ["remind me", "set a reminder to", "set reminder", "set a reminder for",
        "reminder to", "reminder for"] 0).1 (by decide) (by decide) (by decide)
    (by decide) (by decide)
  rw [h]
  decide

end Sonna
